import Mathlib

set_option maxHeartbeats 1000000

/- Verification of the AWS Lambda handler builder
   (src/builder/AwsLambdaHandlerBuilder.ts).

   The embedding models JavaScript values, the rxjs-based handler chain,
   the AJV error formatting, the error classifier and the response
   assembly as executable Lean functions.  External collaborators (the
   AJV validator itself, the reflection library and JSON.parse) are
   passed in as function parameters, exactly at the interface boundary
   the code uses them. -/

/-- JavaScript values as they are passed between handler stages and
serialized by JSON.stringify.  `undefined` and `null` are distinct
values, as in JavaScript. -/
inductive JsVal where
  | vUndef
  | vNull
  | vNum (n : Int)
  | vStr (s : String)
  | vArr (elems : List JsVal)
  | vObj (fields : List (String × JsVal))

/-- The JavaScript expression `v ?? null`, applied by the chain loop to a
raw (non-promise, non-observable) stage result
(`switchMap(async result => result ?? null)`, line 207). -/
def jsCoalesceNull (v : JsVal) : JsVal :=
  match v with
  | .vUndef => .vNull
  | .vNull => .vNull
  | v => v

/-- One hexadecimal digit, lower case, for JSON control-character escapes. -/
def hexDigit (n : Nat) : String :=
  String.mk [Char.ofNat (if n < 10 then 48 + n else 87 + (n % 16))]

/-- JSON.stringify escaping of a single character inside a string literal. -/
def jsonEscapeChar (c : Char) : String :=
  if c = '"' then "\\\""
  else if c = '\\' then "\\\\"
  else if c = '\n' then "\\n"
  else if c = '\r' then "\\r"
  else if c = '\t' then "\\t"
  else if c.toNat = 8 then "\\b"
  else if c.toNat = 12 then "\\f"
  else if c.toNat < 32 then "\\u00" ++ hexDigit (c.toNat / 16) ++ hexDigit (c.toNat % 16)
  else String.mk [c]

/-- A JSON string literal, as JSON.stringify produces it. -/
def jsonQuote (s : String) : String :=
  "\"" ++ String.join (s.data.map jsonEscapeChar) ++ "\""

mutual

/-- JSON.stringify on a JavaScript value.  `none` models the fact that
`JSON.stringify(undefined)` returns `undefined`, not a string.  Inside
arrays `undefined` serializes as `null`; inside objects a field whose
value is `undefined` is omitted, as in JavaScript. -/
def stringify : JsVal → Option String
  | .vUndef => none
  | .vNull => some "null"
  | .vNum n => some (toString n)
  | .vStr s => some (jsonQuote s)
  | .vArr elems => some ("[" ++ String.intercalate "," (stringifyElems elems) ++ "]")
  | .vObj fields =>
      some ("\x7b" ++ String.intercalate "," (stringifyFields fields) ++ "\x7d")

/-- Serialization of array elements (undefined becomes null). -/
def stringifyElems : List JsVal → List String
  | [] => []
  | v :: vs => ((stringify v).getD "null") :: stringifyElems vs

/-- Serialization of object fields (undefined-valued fields are dropped). -/
def stringifyFields : List (String × JsVal) → List String
  | [] => []
  | (k, v) :: kvs =>
      match stringify v with
      | some s => (jsonQuote k ++ ":" ++ s) :: stringifyFields kvs
      | none => stringifyFields kvs

end

/-- A field-level validation finding, the element type produced by
`formatErrors` and stored on the thrown `SchemaValidationError`
(an object with exactly the two properties `key` and `message`). -/
structure Finding where
  key : String
  message : String
deriving DecidableEq

/-- The errors thrown inside the handler, as a closed enumeration:
`SchemaValidationError`, `RequestTimeoutError`, `PayloadTooLargeError`
from the external core package, rxjs's `EmptyError`, plain `Error`
(carrying a message), and user-defined error classes identified by a
numeric tag.  All of them are `instanceof Error`. -/
inductive Err where
  | schemaValidation (message : String) (errors : List Finding)
  | requestTimeout
  | payloadTooLarge
  | emptyErr
  | generic (message : String)
  | custom (tag : Nat) (message : String)
deriving DecidableEq

/-- Error classes that can appear in an `errorToStatusCodeMapping`
(`Record<number, Array<new (...args) => Error>>`): the three built-in
classes, rxjs's `EmptyError`, the base class `Error`, and user-defined
classes identified by tag. -/
inductive ErrClass where
  | schemaValidationError
  | requestTimeoutError
  | payloadTooLargeError
  | emptyError
  | errorBase
  | customClass (tag : Nat)
deriving DecidableEq

/-- The `error instanceof errorType` test used by the classifier loop
(line 258).  Distinct user classes are unrelated; every modelled error
extends `Error`. -/
def Err.isInstanceOf : Err → ErrClass → Bool
  | _, .errorBase => true
  | .schemaValidation _ _, .schemaValidationError => true
  | .requestTimeout, .requestTimeoutError => true
  | .payloadTooLarge, .payloadTooLargeError => true
  | .emptyErr, .emptyError => true
  | .custom t _, .customClass u => t == u
  | _, _ => false

/-- Modelled from the spec: the message text of `RequestTimeoutError`
from the external `@denis_bruns/core` package (its source is not part of
this repository; no claim depends on the exact text). -/
def requestTimeoutMessage : String := "Request Timeout"

/-- Modelled from the spec: the message text of `PayloadTooLargeError`
from the external `@denis_bruns/core` package (not in this repository;
no claim depends on the exact text). -/
def payloadTooLargeMessage : String := "Payload Too Large"

/-- Modelled from the spec: the message of rxjs's `EmptyError` (external;
no claim depends on the exact text). -/
def emptyErrorMessage : String := "no elements in sequence"

/-- `error.message` of a modelled error. -/
def errMessage : Err → String
  | .schemaValidation m _ => m
  | .requestTimeout => requestTimeoutMessage
  | .payloadTooLarge => payloadTooLargeMessage
  | .emptyErr => emptyErrorMessage
  | .generic m => m
  | .custom _ m => m

/-- An AJV `ErrorObject` as consumed by `formatErrors` (lines 56-102):
`instancePath`, `keyword`, the `params` fields the code looks at
(`missingProperty`, `additionalProperty`, `format`, and `errors` for the
`errorMessage` keyword, of which only each sub-error's `keyword` is
read), `message`, and the schema attached to the error (only its mapping
from keyword to custom message is read; `none` models a non-object
schema). -/
structure ErrorObject where
  instancePath : String
  keyword : String
  missingProperty : Option String
  additionalProperty : Option String
  format : Option String
  paramsErrors : Option (List String)
  message : Option String
  schemaMsgs : Option (List (String × String))

/-- JavaScript truthiness of an optional string (`undefined` and the
empty string are falsy). -/
def truthyOptStr (o : Option String) : Bool :=
  match o with
  | none => false
  | some s => s != ""

/-- JavaScript's `String.prototype.split` on the separator `/`, over the
character list (structurally recursive so that it evaluates): splitting
the empty string gives `[""]`, a leading separator an empty first group,
and so on. -/
def splitSlashChars : List Char → List (List Char)
  | [] => [[]]
  | c :: rest =>
      let r := splitSlashChars rest
      if c = '/' then [] :: r
      else
        match r with
        | [] => [[c]]
        | g :: gs => (c :: g) :: gs

/-- `error.instancePath.split('/').filter(Boolean)` (lines 62-64). -/
def instancePathSegs (p : String) : List String :=
  ((splitSlashChars p.data).map String.mk).filter (fun s => s != "")

/-- The `key` computed for one AJV error (lines 66-79), including the
source's dead `parentPath` ternaries: the `missingProperty` and
`additionalProperty` branches are only reached when `pathSegments` is
empty, so `parentPath` is always the empty string there. -/
def formatKey (e : ErrorObject) : String :=
  let pathSegments := instancePathSegs e.instancePath
  if pathSegments.length > 0 then
    String.intercalate "." pathSegments
  else if truthyOptStr e.missingProperty then
    let parentPath := String.intercalate "." pathSegments
    if parentPath != "" then parentPath ++ "." ++ e.missingProperty.getD ""
    else e.missingProperty.getD ""
  else if truthyOptStr e.additionalProperty then
    let parentPath := String.intercalate "." pathSegments
    if parentPath != "" then parentPath ++ "." ++ e.additionalProperty.getD ""
    else e.additionalProperty.getD ""
  else if truthyOptStr e.format then
    if pathSegments.length > 0 then String.intercalate "." pathSegments
    else e.format.getD ""
  else "generic"

/-- The findings pushed for one AJV error (lines 81-98): for an
`errorMessage` error with a (truthy, i.e. present) `params.errors`
array, one finding per sub-error whose keyword has a (truthy) custom
message on the error's (object) schema; otherwise one finding when
`error.message` is truthy. -/
def formatErrorFindings (e : ErrorObject) : List Finding :=
  let key := formatKey e
  if e.keyword == "errorMessage" && !(e.paramsErrors.isNone) then
    (e.paramsErrors.getD []).filterMap (fun kw =>
      match e.schemaMsgs with
      | some msgs =>
          match msgs.find? (fun p => p.1 == kw) with
          | some p => if p.2 != "" then some ⟨key, p.2⟩ else none
          | none => none
      | none => none)
  else
    match e.message with
    | some m => if m != "" then [⟨key, m⟩] else []
    | none => []

/-- `formatErrors` (lines 56-102): the flattened findings of all AJV
errors (a `null`/empty input yields `[]`). -/
def formatErrors : List ErrorObject → List Finding
  | [] => []
  | e :: rest => formatErrorFindings e ++ formatErrors rest

/-- `validate` (lines 104-118).  The AJV validator itself is an external
black box; it is passed in as a function that returns `none` on success
and the list of `ErrorObject`s on failure.  On failure a
`SchemaValidationError` carrying `'Validation failed'` and the formatted
findings is thrown. -/
def validate (validator : JsVal → Option (List ErrorObject)) (data : JsVal) :
    Except Err JsVal :=
  match validator data with
  | none => .ok data
  | some errs => .error (.schemaValidation "Validation failed" (formatErrors errs))

/-- `validateOrigin` (lines 35-38).  `!whitelist || !requestOrigin`
returns the wildcard; JavaScript falsiness makes an absent origin and an
empty-string origin both falsy (an array whitelist, even empty, is
truthy).  Otherwise the origin is echoed when whitelisted and the
literal string "null" is returned when not. -/
def validateOrigin (requestOrigin : Option String) (whitelist : Option (List String)) :
    String :=
  match whitelist, requestOrigin with
  | none, _ => "*"
  | some _, none => "*"
  | some wl, some o =>
      if o = "" then "*" else if wl.contains o then o else "null"

/-- Property access on a JavaScript record: the exact key, as the code
does with `event.headers['content-type']` and `event.headers.origin`
(no case folding). -/
def headerGet (hs : List (String × String)) (k : String) : Option String :=
  (hs.find? (fun p => p.1 == k)).map (fun p => p.2)

/-- Substring test on character lists, for `String.includes`. -/
def charsContain (sub : List Char) : List Char → Bool
  | [] => sub.isEmpty
  | c :: cs => sub.isPrefixOf (c :: cs) || charsContain sub cs

/-- JavaScript's `s.includes(sub)`. -/
def strIncludes (s sub : String) : Bool :=
  charsContain sub.data s.data

/-- Overwrite one binding of `a` with the value `b` holds for its key,
when it holds one. -/
def objAssignF (b : List (String × String)) (p : String × String) :
    String × String :=
  match b.find? (fun q => q.1 == p.1) with
  | some q => (p.1, q.2)
  | none => p

/-- The object-spread merge `{...a, ...b}` on string records: keys of
`a` keep their position (their value overwritten when `b` has the key);
keys of `b` not in `a` follow in order. -/
def objAssign (a b : List (String × String)) : List (String × String) :=
  a.map (objAssignF b) ++ b.filter (fun q => !(a.any (fun p => p.1 == q.1)))

/-- `DEFAULT_MAX_RESPONSE_SIZE` (line 137). -/
def DEFAULT_MAX_RESPONSE_SIZE : Nat := 6 * 1024 * 1024

/-- `DEFAULT_TIMEOUT` (line 138). -/
def DEFAULT_TIMEOUT : Nat := 29000

/-- `DEFAULT_SECURITY_HEADERS` (lines 141-148). -/
def DEFAULT_SECURITY_HEADERS : List (String × String) :=
  [("Strict-Transport-Security", "max-age=31536000; includeSubDomains"),
   ("X-Content-Type-Options", "nosniff"),
   ("X-Frame-Options", "DENY"),
   ("Content-Security-Policy", "default-src \x27none\x27"),
   ("Cache-Control", "no-store, max-age=0"),
   ("Pragma", "no-cache")]

/-- What one stage's `createHandler(query, event)` plus
`handler.execute(query)` can do, with the time (in ms of event-loop
time) until an asynchronous result settles:
a synchronous throw (from the factory or from `execute`), a plain
synchronous value, a promise that resolves or rejects, or an rxjs
Observable whose first emission is taken by `firstValueFrom` — which
emits a value, completes empty (the promise rejects with `EmptyError`),
or errors before emitting. -/
inductive StageOutcome where
  | throwSync (e : Err)
  | value (v : JsVal)
  | promiseOk (delay : Nat) (v : JsVal)
  | promiseRejected (delay : Nat) (e : Err)
  | observableEmit (delay : Nat) (v : JsVal)
  | observableEmpty (delay : Nat)
  | observableError (delay : Nat) (e : Err)

/-- A handler stage, as a function of the query value the factory (and
`execute`) receives.  The `event` argument of the factory carries no
data dependency in the chain and is not modelled. -/
def Stage : Type := JsVal → StageOutcome

/-- The value the pipeline step built for one stage delivers to the next
(lines 200-209): `map` turns an Observable result into
`firstValueFrom(result)`; `switchMap(async result => result ?? null)`
coalesces a raw `undefined`/`null` value to `null` but passes a promise
through `??` unchanged (a promise object is never nullish), so an
asynchronously produced value — including `undefined` — is delivered
as-is; an empty observable completion rejects with `EmptyError`. -/
def stageStep (s : Stage) (q : JsVal) : Nat × Except Err JsVal :=
  match s q with
  | .throwSync e => (0, .error e)
  | .value v => (0, .ok (jsCoalesceNull v))
  | .promiseOk d v => (d, .ok v)
  | .promiseRejected d e => (d, .error e)
  | .observableEmit d v => (d, .ok v)
  | .observableEmpty d => (d, .error .emptyErr)
  | .observableError d e => (d, .error e)

/-- Result of running the whole chain. -/
inductive ChainOutcome where
  | success (v : JsVal)
  | failure (e : Err)

/-- The sequential chain fold of lines 198-209: starting from
`from([initialQuery])`, each stage's factory is invoked with the current
value, its result is settled, and the settled value feeds the next
stage; an error (throw, rejection, or `EmptyError` from an empty
observable) stops the chain.  Returned are the trace of values the
stage factories were invoked with, the accumulated asynchronous delay
up to the point the final notification is delivered, and the outcome. -/
def runChainAux (q : JsVal) : List Stage → List JsVal × Nat × ChainOutcome
  | [] => ([], 0, .success q)
  | s :: rest =>
      match stageStep s q with
      | (d, .ok v) =>
          let r := runChainAux v rest
          (q :: r.1, d + r.2.1, r.2.2)
      | (d, .error e) => ([q], d, .failure e)

/-- The queries the stage factories are invoked with, in order. -/
def chainTrace (q : JsVal) (stages : List Stage) : List JsVal :=
  (runChainAux q stages).1

/-- Accumulated asynchronous delay until the chain's final notification. -/
def chainElapsed (q : JsVal) (stages : List Stage) : Nat :=
  (runChainAux q stages).2.1

/-- The chain's outcome. -/
def chainOutcome (q : JsVal) (stages : List Stage) : ChainOutcome :=
  (runChainAux q stages).2.2

/-- The value a successful stage delivers to the next stage, if any. -/
def stageOutput (s : Stage) (q : JsVal) : Option JsVal :=
  match (stageStep s q).2 with
  | .ok v => some v
  | .error _ => none

/-- The error a failing stage delivers, if any. -/
def stageFailure (s : Stage) (q : JsVal) : Option Err :=
  match (stageStep s q).2 with
  | .ok _ => none
  | .error e => some e

/-- Lookup in a user-supplied `Record<number, ...>`, modelled as a list
of bindings where a later binding for the same key wins. -/
def recordLookup {α : Type} (l : List (Nat × α)) (k : Nat) : Option α :=
  (l.reverse.find? (fun p => p.1 == k)).map (fun p => p.2)

/-- Insert a key into an ascending, duplicate-free list of keys. -/
def insertSorted (n : Nat) : List Nat → List Nat
  | [] => [n]
  | m :: ms =>
      if n < m then n :: m :: ms
      else if n = m then m :: ms
      else m :: insertSorted n ms

/-- The ascending, duplicate-free list of a key list, giving the order
in which `Object.entries` enumerates an object whose keys are all
array-index-like numeric strings (HTTP status codes are). -/
def sortedKeys (l : List Nat) : List Nat := l.foldr insertSorted []

/-- The built-in status keys of the `errorMapping` literal. -/
def builtinKeys : List Nat := [400, 408, 413]

/-- The class list the `errorMapping` object literal (lines 249-254)
holds under a given status key: the literal's explicit `400`, `408` and
`413` entries overwrite spread-in user entries — `400` merges the user's
400 classes with `SchemaValidationError`, while `408` and `413` are
replaced outright — and any other key keeps the user's classes. -/
def mappingClasses (user : List (Nat × List ErrClass)) (k : Nat) : List ErrClass :=
  if k = 400 then (recordLookup user 400).getD [] ++ [.schemaValidationError]
  else if k = 408 then [.requestTimeoutError]
  else if k = 413 then [.payloadTooLargeError]
  else (recordLookup user k).getD []

/-- The ordered `Object.entries(errorMapping)` sequence the classifier
loop (lines 257-262) walks: all keys of the object
(user keys plus 400, 408, 413) in ascending numeric order — JavaScript
enumerates integer-like keys ascending, regardless of insertion
order — each with its class list. -/
def errorMapping (user : List (Nat × List ErrClass)) : List (Nat × List ErrClass) :=
  (sortedKeys (user.map (fun p => p.1) ++ builtinKeys)).map
    (fun k => (k, mappingClasses user k))

/-- `errorTypes.some(errorType => error instanceof errorType)` (line 258). -/
def errMatchesAny (e : Err) (classes : List ErrClass) : Bool :=
  classes.any (fun c => e.isInstanceOf c)

/-- The statusCode computed by the catch block (lines 247-263): the
first entry of `Object.entries(errorMapping)` whose class list matches
the error; 500 when none matches. -/
def classifyError (user : List (Nat × List ErrClass)) (e : Err) : Nat :=
  match (errorMapping user).find? (fun p => errMatchesAny e p.2) with
  | some p => p.1
  | none => 500

/-- The classifier as the claim describes it (for comparison only, not
translated from the source): the ordered mapping is the user's rules in
their given order, followed by the built-in rules 400 (the user's 400
classes merged with `SchemaValidationError`), 408 and 413; the first
matching entry wins, default 500. -/
def classifyErrorClaimed (user : List (Nat × List ErrClass)) (e : Err) : Nat :=
  let ordered := user ++
    [(400, (recordLookup user 400).getD [] ++ [ErrClass.schemaValidationError]),
     (408, [ErrClass.requestTimeoutError]),
     (413, [ErrClass.payloadTooLargeError])]
  match ordered.find? (fun p => errMatchesAny e p.2) with
  | some p => p.1
  | none => 500

/-- The parts of an `APIGatewayProxyEvent` the handler reads: method,
headers (a JavaScript record with the keys exactly as present on the
event object), and the raw body. -/
structure Event where
  httpMethod : String
  headers : List (String × String)
  body : Option String

/-- The builder-level configuration (lines 28-33); `allowedMethods` is
destructured by the source but never used afterwards and is omitted. -/
structure BuilderConfig where
  maxResponseSize : Option Nat
  headers : Option (List (String × String))
  corsOriginWhitelist : Option (List String)

/-- The per-route configuration (lines 163-172).  The reflection
mechanism and the compiled AJV validator are external and appear as
functions; the validator returns `none` on success. -/
structure RouteConfig where
  handlers : List Stage
  initialBodyReflector : Option (JsVal → JsVal)
  initialQueryReflector : Option (Event → JsVal)
  errorToStatusCodeMapping : Option (List (Nat × List ErrClass))
  bodySchema : Option (JsVal → Option (List ErrorObject))
  timeoutMs : Option Nat

/-- The `APIGatewayProxyResult` the handler returns. -/
structure LambdaResponse where
  statusCode : Nat
  headers : List (String × String)
  body : String

/-- `event.headers['content-type']?.includes('application/json')`
(line 179): false when the exact lower-case key is absent. -/
def declaresJsonContentType (event : Event) : Bool :=
  match headerGet event.headers "content-type" with
  | some v => strIncludes v "application/json"
  | none => false

/-- The content-type gate condition of lines 178-181. -/
def contentTypeGateFails (event : Event) : Bool :=
  (event.httpMethod == "POST" || event.httpMethod == "PUT") &&
    !(declaresJsonContentType event)

/-- `event.body || fallback`: JavaScript `||` takes the fallback for an
absent or empty body. -/
def jsStrOr (body : Option String) (fallback : String) : String :=
  match body with
  | some s => if s = "" then fallback else s
  | none => fallback

/-- The spread copy `{...v}` applied to the reflected initial query
(line 195): an object is copied field for field; arrays and strings
spread to index-keyed objects; other primitives spread to `{}`. -/
def jsSpreadToObj : JsVal → JsVal
  | .vObj fs => .vObj fs
  | .vArr l => .vObj (l.enum.map (fun p => (toString p.1, p.2)))
  | .vStr s => .vObj (s.data.enum.map (fun p => (toString p.1, JsVal.vStr (String.mk [p.2]))))
  | _ => .vObj []

/-- Lines 183-186: when a `bodySchema` is configured, parse
`event.body || "{}"` (a parse failure throws) and validate it.  The
validated/normalized value itself is discarded by the source. -/
def schemaGate (cfg : RouteConfig) (jsonParse : String → Except String JsVal)
    (event : Event) : Except Err Unit :=
  match cfg.bodySchema with
  | none => .ok ()
  | some validator =>
      match jsonParse (jsStrOr event.body "\x7b\x7d") with
      | .error m => .error (.generic m)
      | .ok bodyData =>
          match validate validator bodyData with
          | .error e => .error e
          | .ok _ => .ok ()

/-- Lines 188-190: when an `initialBodyReflector` is configured, parse
`event.body || ""` (so an absent or empty body throws a parse error) and
reflect it; otherwise the initial body is `{}`. -/
def reflectBodyGate (cfg : RouteConfig) (jsonParse : String → Except String JsVal)
    (event : Event) : Except Err JsVal :=
  match cfg.initialBodyReflector with
  | none => .ok (JsVal.vObj [])
  | some refl =>
      match jsonParse (jsStrOr event.body "") with
      | .error m => .error (.generic m)
      | .ok parsed => .ok (refl parsed)

/-- The try block of the handler (lines 177-223): content-type gate,
schema validation, body reflection (line 192's write-back of the
reflected body onto `event.body` only affects the event object passed to
stage factories, which carries no modelled data, and is recorded by the
discarded binding below), initial-query extraction, the chain fold, the
single `timeout` operator wrapped around the whole chain (armed once at
subscription with `timeoutMs ?? DEFAULT_TIMEOUT`, never reset per
stage; it preempts any notification delivered after it fires), and the
`firstValueFrom(...).catch` that turns an `EmptyError` into a `null`
result.  Synchronous work consumes no event-loop time; only the
asynchronous stage delays race the timer. -/
def handlerCore (cfg : RouteConfig) (jsonParse : String → Except String JsVal)
    (event : Event) : Except Err JsVal :=
  if contentTypeGateFails event then
    .error (.generic "Content-Type must be application/json")
  else
    match schemaGate cfg jsonParse event with
    | .error e => .error e
    | .ok _ =>
        match reflectBodyGate cfg jsonParse event with
        | .error e => .error e
        | .ok initialBody =>
            let _bodyWriteBack := stringify initialBody
            let initialQuery :=
              match cfg.initialQueryReflector with
              | some refl => jsSpreadToObj (refl event)
              | none => JsVal.vObj []
            let tmo := cfg.timeoutMs.getD DEFAULT_TIMEOUT
            let r := runChainAux initialQuery cfg.handlers
            if tmo < r.2.1 then .error .requestTimeout
            else
              match r.2.2 with
              | .success v => .ok v
              | .failure .emptyErr => .ok JsVal.vNull
              | .failure e => .error e

/-- The user's error mapping, `{}` when absent. -/
def userMappingOf (cfg : RouteConfig) : List (Nat × List ErrClass) :=
  cfg.errorToStatusCodeMapping.getD []

/-- One entry of the `validationErrors` array assembled in the catch
block (lines 274-279).  The objects stored on the error by `validate`
have only `key` and `message`, so `err.schemaPath`, `err.keyword` and
`err.params` evaluate to `undefined` (and are later dropped by
JSON.stringify). -/
def validationErrorEntry (f : Finding) : JsVal :=
  .vObj [("path", .vUndef), ("message", .vStr f.message),
         ("keyword", .vUndef), ("params", .vUndef)]

/-- The findings attached to a `SchemaValidationError` (`error.errors`,
truthy even when the list is empty), `none` for every other error. -/
def errFindings : Err → Option (List Finding)
  | .schemaValidation _ errs => some errs
  | _ => none

/-- The error body of lines 265-281. -/
def errorBodyJson (message : String) (code : Nat) (requestId : String)
    (timestamp : String) (validationErrors : Option (List Finding)) : JsVal :=
  JsVal.vObj
    ([("message", JsVal.vStr message),
      ("code", JsVal.vNum (Int.ofNat code)),
      ("requestId", JsVal.vStr requestId),
      ("timestamp", JsVal.vStr timestamp)] ++
     (match validationErrors with
      | some fs => [("validationErrors", JsVal.vArr (fs.map validationErrorEntry))]
      | none => []))

/-- The header object `{...securityHeaders, ...corsHeaders,
'Content-Type': 'application/json'}` built identically on the success
path (lines 235-239) and the error path (lines 288-292). -/
def buildHeaders (securityHeaders : List (String × String)) (allowedOrigin : String) :
    List (String × String) :=
  objAssign (objAssign securityHeaders [("Access-Control-Allow-Origin", allowedOrigin)])
    [("Content-Type", "application/json")]

/-- A response with the shared header composition; the allowed origin is
`validateOrigin(event.headers.origin, corsOriginWhitelist)` (lines 230
and 283, identical on both paths). -/
def mkResponse (status : Nat) (bcfg : BuilderConfig) (event : Event) (body : String) :
    LambdaResponse :=
  ⟨status,
   buildHeaders (bcfg.headers.getD DEFAULT_SECURITY_HEADERS)
     (validateOrigin (headerGet event.headers "origin") bcfg.corsOriginWhitelist),
   body⟩

/-- The catch block (lines 246-294): classify the error, build the error
body (with `validationErrors` for a `SchemaValidationError`), serialize
it and attach the shared headers. -/
def mkErrorResponse (bcfg : BuilderConfig) (user : List (Nat × List ErrClass))
    (e : Err) (event : Event) (requestId nowIso : String) : LambdaResponse :=
  let statusCode := classifyError user e
  mkResponse statusCode bcfg event
    ((stringify (errorBodyJson (errMessage e) statusCode requestId nowIso
      (errFindings e))).getD "")

/-- Modelled from the spec's runtime environment: the message of the
TypeError Node's `Buffer.byteLength` throws when `JSON.stringify`
returned `undefined` (a final chain result of `undefined`); no claim
depends on the text. -/
def byteLengthTypeErrorMessage : String :=
  "The first argument must be of type string"

/-- The handler returned by `awsLambdaHandlerBuilder` (lines 174-296):
run the try block; on success serialize the result
(`JSON.stringify(undefined)` makes the subsequent `Buffer.byteLength`
throw), fail with `PayloadTooLargeError` when the UTF-8 size exceeds
`maxResponseSize ?? DEFAULT_MAX_RESPONSE_SIZE`, otherwise answer 200;
every caught error is classified and turned into an error response.
`awsRequestId` is `context.awsRequestId` and `nowIso` the ISO timestamp
taken in the catch block. -/
def runHandler (bcfg : BuilderConfig) (cfg : RouteConfig)
    (jsonParse : String → Except String JsVal) (event : Event)
    (awsRequestId nowIso : String) : LambdaResponse :=
  match handlerCore cfg jsonParse event with
  | .error e => mkErrorResponse bcfg (userMappingOf cfg) e event awsRequestId nowIso
  | .ok result =>
      match stringify result with
      | none =>
          mkErrorResponse bcfg (userMappingOf cfg)
            (.generic byteLengthTypeErrorMessage) event awsRequestId nowIso
      | some responseBody =>
          if responseBody.utf8ByteSize > bcfg.maxResponseSize.getD DEFAULT_MAX_RESPONSE_SIZE then
            mkErrorResponse bcfg (userMappingOf cfg) .payloadTooLarge event
              awsRequestId nowIso
          else mkResponse 200 bcfg event responseBody

/-- A GET event with no headers and no body, used to exercise the
pipeline on claims that quantify over chains rather than requests. -/
def getEvent : Event := ⟨"GET", [], none⟩

/-- A parse stub standing in for `JSON.parse` where the parsed value is
irrelevant. -/
def jsonParseStub : String → Except String JsVal := fun _ => .ok (JsVal.vObj [])

/-- A builder configuration with every option left to its default. -/
def bcfgDefault : BuilderConfig := ⟨none, none, none⟩

/-- A route configuration with the given chain, user error mapping and
timeout, whose initial query reflector produces the given object fields
(`{...}` spread of an object is the object itself). -/
def mkChainCfg (stages : List Stage) (user : List (Nat × List ErrClass))
    (tmo : Option Nat) (fl : List (String × JsVal)) : RouteConfig :=
  ⟨stages, none, some (fun _ => JsVal.vObj fl), some user, none, tmo⟩

/- Helper lemmas about the chain fold. -/

theorem runChainAux_head (q : JsVal) (s : Stage) (rest : List Stage) :
    (runChainAux q (s :: rest)).1.get? 0 = some q := by
  rcases h : stageStep s q with ⟨d, res⟩
  cases res <;> simp [runChainAux, h]

theorem runChainAux_length_le (stages : List Stage) : ∀ q : JsVal,
    (runChainAux q stages).1.length ≤ stages.length := by
  induction stages with
  | nil => intro q; simp [runChainAux]
  | cons s rest ih =>
      intro q
      rcases h : stageStep s q with ⟨d, res⟩
      cases res with
      | ok v =>
          simpa [runChainAux, h] using Nat.succ_le_succ (ih v)
      | error e =>
          simp [runChainAux, h]

theorem runChainAux_flow (stages : List Stage) :
    ∀ (q0 : JsVal) (k : Nat) (s : Stage) (qk v : JsVal),
    stages.get? k = some s →
    (runChainAux q0 stages).1.get? k = some qk →
    stageOutput s qk = some v →
    k + 1 < stages.length →
    (runChainAux q0 stages).1.get? (k + 1) = some v := by
  induction stages with
  | nil => intro q0 k s qk v h1 _ _ _; simp at h1
  | cons s0 rest ih =>
      intro q0 k s qk v h1 h2 h3 h4
      rcases hss : stageStep s0 q0 with ⟨d, res⟩
      cases res with
      | ok v0 =>
          cases k with
          | zero =>
              have hs : s0 = s := by simpa using h1
              have hq : q0 = qk := by simpa [runChainAux, hss] using h2
              have hout : stageOutput s qk = some v0 := by
                rw [← hs, ← hq]
                simp [stageOutput, hss]
              have hv : v0 = v := Option.some_inj.mp (hout.symm.trans h3)
              have hrest : 0 < rest.length := by simpa using h4
              rcases rest with _ | ⟨s1, rest1⟩
              · simp at hrest
              · rw [← hv]
                simpa [runChainAux, hss] using runChainAux_head v0 s1 rest1
          | succ k1 =>
              have h1' : rest.get? k1 = some s := by simpa using h1
              have h2' : (runChainAux v0 rest).1.get? k1 = some qk := by
                simpa [runChainAux, hss] using h2
              have h4' : k1 + 1 < rest.length := by
                simpa [Nat.succ_lt_succ_iff] using h4
              have := ih v0 k1 s qk v h1' h2' h3 h4'
              simpa [runChainAux, hss] using this
      | error e =>
          have h2' : [q0].get? k = some qk := by
            simpa [runChainAux, hss] using h2
          cases k with
          | succ k1 => simp at h2'
          | zero =>
              have hq : q0 = qk := by simpa using h2'
              have hs : s0 = s := by simpa using h1
              have hout : stageOutput s qk = none := by
                rw [← hs, ← hq]
                simp [stageOutput, hss]
              rw [hout] at h3
              exact absurd h3 (by simp)

theorem runChainAux_fail (stages : List Stage) :
    ∀ (q0 : JsVal) (k : Nat) (s : Stage) (qk : JsVal) (e : Err),
    stages.get? k = some s →
    (runChainAux q0 stages).1.get? k = some qk →
    stageFailure s qk = some e →
    (runChainAux q0 stages).1.length = k + 1 ∧
      (runChainAux q0 stages).2.2 = ChainOutcome.failure e := by
  induction stages with
  | nil => intro q0 k s qk e h1 _ _; simp at h1
  | cons s0 rest ih =>
      intro q0 k s qk e h1 h2 h3
      rcases hss : stageStep s0 q0 with ⟨d, res⟩
      cases res with
      | ok v0 =>
          cases k with
          | zero =>
              have hs : s0 = s := by simpa using h1
              have hq : q0 = qk := by simpa [runChainAux, hss] using h2
              have hout : stageFailure s qk = none := by
                rw [← hs, ← hq]
                simp [stageFailure, hss]
              rw [hout] at h3
              exact absurd h3 (by simp)
          | succ k1 =>
              have h1' : rest.get? k1 = some s := by simpa using h1
              have h2' : (runChainAux v0 rest).1.get? k1 = some qk := by
                simpa [runChainAux, hss] using h2
              have := ih v0 k1 s qk e h1' h2' h3
              constructor
              · simpa [runChainAux, hss] using this.1
              · simpa [runChainAux, hss] using this.2
      | error e0 =>
          have h2' : [q0].get? k = some qk := by
            simpa [runChainAux, hss] using h2
          cases k with
          | succ k1 => simp at h2'
          | zero =>
              have hq : q0 = qk := by simpa using h2'
              have hs : s0 = s := by simpa using h1
              have he : e0 = e := by
                have hout : stageFailure s qk = some e0 := by
                  rw [← hs, ← hq]
                  simp [stageFailure, hss]
                exact Option.some_inj.mp (hout.symm.trans h3)
              rw [← he]
              simp [runChainAux, hss]

/- Helper lemmas about the ordered error mapping. -/

theorem mem_insertSorted (n m : Nat) (l : List Nat) :
    m ∈ insertSorted n l ↔ m = n ∨ m ∈ l := by
  induction l with
  | nil => simp [insertSorted]
  | cons a l ih =>
      by_cases h1 : n < a
      · simp [insertSorted, h1]
      · by_cases h2 : n = a
        · subst h2
          simp [insertSorted, h1, List.mem_cons]
        · simp only [insertSorted, if_neg h1, if_neg h2, List.mem_cons, ih]
          tauto

theorem pairwise_insertSorted (n : Nat) (l : List Nat)
    (h : l.Pairwise (· < ·)) : (insertSorted n l).Pairwise (· < ·) := by
  induction l with
  | nil => simp [insertSorted]
  | cons a l ih =>
      rcases List.pairwise_cons.mp h with ⟨ha, hl⟩
      by_cases h1 : n < a
      · simp only [insertSorted, if_pos h1]
        refine List.pairwise_cons.mpr ⟨?_, h⟩
        intro b hb
        rcases List.mem_cons.mp hb with hb | hb
        · exact hb ▸ h1
        · exact Nat.lt_trans h1 (ha b hb)
      · by_cases h2 : n = a
        · subst h2
          simp only [insertSorted, if_neg h1, if_pos rfl]
          exact h
        · have han : a < n :=
            Nat.lt_of_le_of_ne (Nat.le_of_not_lt h1) (Ne.symm h2)
          simp only [insertSorted, if_neg h1, if_neg h2]
          refine List.pairwise_cons.mpr ⟨?_, ih hl⟩
          intro b hb
          rcases (mem_insertSorted n b l).mp hb with hb | hb
          · exact hb ▸ han
          · exact ha b hb

theorem mem_sortedKeys (l : List Nat) (k : Nat) :
    k ∈ sortedKeys l ↔ k ∈ l := by
  induction l with
  | nil => simp [sortedKeys]
  | cons a l ih =>
      simp only [sortedKeys, List.foldr_cons]
      rw [mem_insertSorted]
      simp [sortedKeys] at ih
      simp [ih]

theorem pairwise_sortedKeys (l : List Nat) :
    (sortedKeys l).Pairwise (· < ·) := by
  induction l with
  | nil => simp [sortedKeys]
  | cons a l ih =>
      simpa [sortedKeys] using pairwise_insertSorted a _ ih

theorem errorMapping_pairwise (user : List (Nat × List ErrClass)) :
    (errorMapping user).Pairwise (fun a b : Nat × List ErrClass => a.1 < b.1) := by
  unfold errorMapping
  rw [List.pairwise_map]
  exact pairwise_sortedKeys _

theorem mem_errorMapping_of_key (user : List (Nat × List ErrClass)) (k : Nat)
    (hk : k ∈ user.map (fun p => p.1) ∨ k ∈ builtinKeys) :
    (k, mappingClasses user k) ∈ errorMapping user := by
  unfold errorMapping
  refine List.mem_map.mpr ⟨k, ?_, rfl⟩
  rw [mem_sortedKeys]
  rcases hk with h | h
  · exact List.mem_append.mpr (Or.inl h)
  · exact List.mem_append.mpr (Or.inr h)

theorem find?_sorted_least (l : List (Nat × List ErrClass))
    (p : Nat × List ErrClass → Bool)
    (hl : l.Pairwise (fun a b : Nat × List ErrClass => a.1 < b.1)) :
    ∀ r, l.find? p = some r → ∀ r', r' ∈ l → p r' = true → r.1 ≤ r'.1 := by
  induction l with
  | nil => intro r hr; simp at hr
  | cons a l ih =>
      intro r hr r' hr' hp'
      rcases List.pairwise_cons.mp hl with ⟨ha, hl'⟩
      by_cases hpa : p a = true
      · rw [List.find?_cons_of_pos _ hpa] at hr
        have : a = r := Option.some_inj.mp hr
        rcases List.mem_cons.mp hr' with h | h
        · rw [← this, h]
        · rw [← this]
          exact Nat.le_of_lt (ha r' h)
      · rw [List.find?_cons_of_neg _ (by simpa using hpa)] at hr
        rcases List.mem_cons.mp hr' with h | h
        · rw [h] at hp'; exact absurd hp' hpa
        · exact ih hl' r hr r' h hp'

theorem find?_some_of_mem {α : Type} (l : List α) (p : α → Bool) (a : α)
    (ha : a ∈ l) (hp : p a = true) :
    ∃ r, l.find? p = some r ∧ p r = true := by
  induction l with
  | nil => simp at ha
  | cons b l ih =>
      by_cases hpb : p b = true
      · exact ⟨b, List.find?_cons_of_pos _ hpb, hpb⟩
      · rcases List.mem_cons.mp ha with h | h
        · rw [← h] at hpb; exact absurd hp hpb
        · rcases ih h with ⟨r, hr, hpr⟩
          exact ⟨r, by rw [List.find?_cons_of_neg _ (by simpa using hpb)]; exact hr, hpr⟩

/- Helper lemmas about the response header composition. -/

theorem objAssignF_key (b : List (String × String)) (p : String × String) :
    (objAssignF b p).1 = p.1 := by
  unfold objAssignF
  split <;> rfl

theorem find?_map_objAssignF (b : List (String × String)) (k : String) :
    ∀ a : List (String × String),
    (a.map (objAssignF b)).find? (fun p => p.1 == k) =
      (a.find? (fun p => p.1 == k)).map (objAssignF b) := by
  intro a
  induction a with
  | nil => rfl
  | cons p a ih =>
      simp only [List.map_cons, List.find?_cons, objAssignF_key]
      cases hc : (p.1 == k) with
      | false => simp only [hc]; exact ih
      | true => simp only [hc]; rfl

theorem headerGet_append (l t : List (String × String)) (k : String) :
    headerGet (l ++ t) k =
      match headerGet l k with
      | some v => some v
      | none => headerGet t k := by
  induction l with
  | nil => simp [headerGet]
  | cons p l ih =>
      simp only [headerGet, List.cons_append, List.find?_cons] at ih ⊢
      cases hc : (p.1 == k) with
      | false => simp only [hc]; exact ih
      | true => simp only [hc]; rfl

theorem headerGet_keys_ne (l : List (String × String)) (k : String)
    (h : ∀ r ∈ l, r.1 ≠ k) : headerGet l k = none := by
  unfold headerGet
  have hfil : List.find? (fun p => p.1 == k) l = none :=
    List.find?_eq_none.mpr (by
      intro x hx
      simp [h x hx])
  rw [hfil]
  rfl

theorem headerGet_map_objAssignF (b : List (String × String)) (k : String)
    (a : List (String × String)) :
    headerGet (a.map (objAssignF b)) k =
      (a.find? (fun p => p.1 == k)).map (fun p => (objAssignF b p).2) := by
  unfold headerGet
  rw [find?_map_objAssignF, Option.map_map]
  rfl

theorem headerGet_objAssign_self (a : List (String × String)) (k v : String) :
    headerGet (objAssign a [(k, v)]) k = some v := by
  unfold objAssign
  rw [headerGet_append, headerGet_map_objAssignF]
  rcases hfa : a.find? (fun p => p.1 == k) with _ | p
  · rw [hfa]
    have hany : a.any (fun p => p.1 == k) = false := by
      rcases h : a.any (fun p => p.1 == k) with _ | _
      · rfl
      · exfalso
        rcases List.any_eq_true.mp h with ⟨p, hp, hpk⟩
        rcases find?_some_of_mem a (fun p => p.1 == k) p hp hpk with ⟨r, hr, _⟩
        rw [hfa] at hr
        exact Option.noConfusion hr
    have hfil : [(k, v)].filter (fun r => !(a.any (fun p => p.1 == r.1))) = [(k, v)] := by
      rw [List.filter_cons]
      simp [hany]
    show headerGet ([(k, v)].filter (fun r => !(a.any (fun p => p.1 == r.1)))) k = some v
    rw [hfil]
    simp [headerGet]
  · rw [hfa]
    have hpk : p.1 = k := by
      have := List.find?_some hfa
      simpa using this
    have hof : objAssignF [(k, v)] p = (p.1, v) := by
      unfold objAssignF
      have hkp : (k == p.1) = true := by simp [hpk]
      simp [List.find?, hkp]
    simp [hof]

theorem headerGet_objAssign_ne (a : List (String × String)) (k q v2 : String)
    (hne : k ≠ q) : headerGet (objAssign a [(q, v2)]) k = headerGet a k := by
  unfold objAssign
  rw [headerGet_append, headerGet_map_objAssignF]
  have htail : headerGet ([(q, v2)].filter
      (fun r => !(a.any (fun p => p.1 == r.1)))) k = none := by
    apply headerGet_keys_ne
    intro r hr
    have hr2 : r ∈ [(q, v2)] := List.mem_of_mem_filter hr
    have hrq : r = (q, v2) := by simpa using hr2
    rw [hrq]
    exact Ne.symm hne
  rcases hfa : a.find? (fun p => p.1 == k) with _ | p
  · rw [hfa]
    show headerGet ([(q, v2)].filter (fun r => !(a.any (fun p => p.1 == r.1)))) k =
      headerGet a k
    rw [htail]
    unfold headerGet
    rw [hfa]
    rfl
  · rw [hfa]
    have hpk : p.1 = k := by
      have := List.find?_some hfa
      simpa using this
    have hof : objAssignF [(q, v2)] p = p := by
      unfold objAssignF
      have hnp : ¬ (q == p.1) = true := by simp [hpk, Ne.symm hne]
      simp [List.find?, hnp]
    show some (objAssignF [(q, v2)] p).2 = headerGet a k
    rw [hof]
    unfold headerGet
    rw [hfa]
    rfl

theorem headerGet_buildHeaders (sh : List (String × String)) (o : String) :
    headerGet (buildHeaders sh o) "Access-Control-Allow-Origin" = some o := by
  unfold buildHeaders
  rw [headerGet_objAssign_ne _ _ _ _ (by decide)]
  exact headerGet_objAssign_self sh _ o

/- Helper lemmas about the handler as a whole. -/

theorem handlerCore_chain (stages : List Stage) (user : List (Nat × List ErrClass))
    (tmo : Option Nat) (fl : List (String × JsVal))
    (jp : String → Except String JsVal) :
    handlerCore (mkChainCfg stages user tmo fl) jp getEvent =
      (if tmo.getD DEFAULT_TIMEOUT < (runChainAux (JsVal.vObj fl) stages).2.1 then
        Except.error Err.requestTimeout
      else
        match (runChainAux (JsVal.vObj fl) stages).2.2 with
        | ChainOutcome.success v => Except.ok v
        | ChainOutcome.failure Err.emptyErr => Except.ok JsVal.vNull
        | ChainOutcome.failure e => Except.error e) := by
  rfl

theorem runHandler_headers (bcfg : BuilderConfig) (cfg : RouteConfig)
    (jp : String → Except String JsVal) (event : Event) (rid now : String) :
    (runHandler bcfg cfg jp event rid now).headers =
      buildHeaders (bcfg.headers.getD DEFAULT_SECURITY_HEADERS)
        (validateOrigin (headerGet event.headers "origin") bcfg.corsOriginWhitelist) := by
  unfold runHandler
  split
  · rfl
  · split
    · rfl
    · split <;> rfl

theorem runHandler_error (bcfg : BuilderConfig) (cfg : RouteConfig)
    (jp : String → Except String JsVal) (event : Event) (rid now : String)
    (e : Err) (hc : handlerCore cfg jp event = Except.error e) :
    runHandler bcfg cfg jp event rid now
      = mkErrorResponse bcfg (userMappingOf cfg) e event rid now := by
  unfold runHandler
  rw [hc]

theorem runHandler_ok_some (bcfg : BuilderConfig) (cfg : RouteConfig)
    (jp : String → Except String JsVal) (event : Event) (rid now : String)
    (v : JsVal) (s : String)
    (hc : handlerCore cfg jp event = Except.ok v) (hs : stringify v = some s) :
    runHandler bcfg cfg jp event rid now =
      (if s.utf8ByteSize > bcfg.maxResponseSize.getD DEFAULT_MAX_RESPONSE_SIZE then
        mkErrorResponse bcfg (userMappingOf cfg) Err.payloadTooLarge event rid now
      else mkResponse 200 bcfg event s) := by
  unfold runHandler
  rw [hc]
  show (match stringify v with
    | none => mkErrorResponse bcfg (userMappingOf cfg)
        (Err.generic byteLengthTypeErrorMessage) event rid now
    | some responseBody =>
        if responseBody.utf8ByteSize > bcfg.maxResponseSize.getD DEFAULT_MAX_RESPONSE_SIZE then
          mkErrorResponse bcfg (userMappingOf cfg) Err.payloadTooLarge event rid now
        else mkResponse 200 bcfg event responseBody) = _
  rw [hs]

/- Helper lemmas about the classifier. -/

theorem classifyError_le (user : List (Nat × List ErrClass)) (e : Err) (k : Nat)
    (cs : List ErrClass) (hm : (k, cs) ∈ errorMapping user)
    (hmatch : errMatchesAny e cs = true) :
    classifyError user e ≤ k ∧
      ∃ cs2, (classifyError user e, cs2) ∈ errorMapping user ∧
        errMatchesAny e cs2 = true := by
  rcases find?_some_of_mem (errorMapping user) (fun p => errMatchesAny e p.2)
      (k, cs) hm hmatch with ⟨r, hr, hpr⟩
  have hle := find?_sorted_least (errorMapping user) _
    (errorMapping_pairwise user) r hr (k, cs) hm hmatch
  unfold classifyError
  rw [hr]
  refine ⟨hle, r.2, ?_, hpr⟩
  have := List.mem_of_find?_eq_some hr
  simpa using this

theorem classifyError_default (user : List (Nat × List ErrClass)) (e : Err)
    (h : ∀ k cs, (k, cs) ∈ errorMapping user → errMatchesAny e cs = false) :
    classifyError user e = 500 := by
  unfold classifyError
  have hnone : (errorMapping user).find? (fun p => errMatchesAny e p.2) = none :=
    List.find?_eq_none.mpr (by
      intro x hx
      rcases x with ⟨k, cs⟩
      simp [h k cs hx])
  rw [hnone]


/- Claim theorems. -/

/-- C1 (amended): in every chain, stage 0's factory is invoked with the
initial query, and stage k's factory is invoked with exactly the value
stage k-1 delivered — a synchronously returned undefined/null is coerced
to null by `?? null`, while an asynchronously produced value (promise
resolution or first observable emission) is passed through unchanged,
including undefined; stages are invoked strictly in chain order (the
trace is indexed by stage position and never exceeds the chain). -/
theorem c1_chain_dataflow (q0 : JsVal) (stages : List Stage) :
    (stages ≠ [] → (chainTrace q0 stages).get? 0 = some q0) ∧
    (∀ (k : Nat) (s : Stage) (qk v : JsVal),
      stages.get? k = some s →
      (chainTrace q0 stages).get? k = some qk →
      stageOutput s qk = some v →
      k + 1 < stages.length →
      (chainTrace q0 stages).get? (k + 1) = some v) ∧
    (chainTrace q0 stages).length ≤ stages.length := by
  refine ⟨?_, ?_, runChainAux_length_le stages q0⟩
  · intro h
    rcases stages with _ | ⟨s, rest⟩
    · exact absurd rfl h
    · exact runChainAux_head q0 s rest
  · intro k s qk v h1 h2 h3 h4
    exact runChainAux_flow stages q0 k s qk v h1 h2 h3 h4

/-- C1 counterexample: the claim says an undefined stage result is
coerced to null before the next stage sees it.  A stage whose promise
resolves to `undefined` refutes this: `?? null` is applied to the
promise object, not to its resolution, so stage 1's factory is invoked
with `undefined`, not `null`. -/
theorem c1_async_undefined_not_coerced :
    chainTrace JsVal.vNull
      [fun _ => StageOutcome.promiseOk 0 JsVal.vUndef, fun q => StageOutcome.value q]
      = [JsVal.vNull, JsVal.vUndef] ∧ JsVal.vUndef ≠ JsVal.vNull :=
  ⟨rfl, fun h => JsVal.noConfusion h⟩

/-- C1 witness: a two-stage chain where stage 0 returns a plain value. -/
theorem c1_chain_dataflow_witness :
    (chainTrace (JsVal.vObj [])
      [fun _ => StageOutcome.value (JsVal.vStr "a"), fun q => StageOutcome.value q]).get? 1
      = some (JsVal.vStr "a") := by
  have h := c1_chain_dataflow (JsVal.vObj [])
    [fun _ => StageOutcome.value (JsVal.vStr "a"), fun q => StageOutcome.value q]
  exact h.2.1 0 (fun _ => StageOutcome.value (JsVal.vStr "a")) (JsVal.vObj [])
    (JsVal.vStr "a") rfl rfl rfl (by decide)

/-- C2 (amended): if stage i's factory or Executable throws, or its
asynchronous result rejects, with any error other than rxjs's
`EmptyError`, and the failure is delivered before the deadline, then no
stage after i is invoked, the chain outcome is exactly that error, the
handler returns the error envelope (no partial success result), and the
response status is the classifier's first matching rule.  (An error that
is an `EmptyError` instance is instead converted to a 200 response with
body `null` — see the counterexample.) -/
theorem c2_stage_failure_aborts (user : List (Nat × List ErrClass))
    (stages : List Stage) (fl : List (String × JsVal)) (i : Nat) (s : Stage)
    (qi : JsVal) (e : Err) (T : Nat) (jp : String → Except String JsVal)
    (rid now : String)
    (h1 : stages.get? i = some s)
    (h2 : (chainTrace (JsVal.vObj fl) stages).get? i = some qi)
    (h3 : stageFailure s qi = some e)
    (h4 : e ≠ Err.emptyErr)
    (h5 : chainElapsed (JsVal.vObj fl) stages ≤ T) :
    (chainTrace (JsVal.vObj fl) stages).length = i + 1 ∧
    chainOutcome (JsVal.vObj fl) stages = ChainOutcome.failure e ∧
    runHandler bcfgDefault (mkChainCfg stages user (some T) fl) jp getEvent rid now
      = mkErrorResponse bcfgDefault user e getEvent rid now ∧
    (mkErrorResponse bcfgDefault user e getEvent rid now).statusCode
      = classifyError user e := by
  have hfail := runChainAux_fail stages (JsVal.vObj fl) i s qi e h1 h2 h3
  have hcore : handlerCore (mkChainCfg stages user (some T) fl) jp getEvent
      = Except.error e := by
    rw [handlerCore_chain]
    simp only [Option.getD_some]
    rw [if_neg (Nat.not_lt.mpr h5 :
      ¬ T < (runChainAux (JsVal.vObj fl) stages).2.1), hfail.2]
    cases e
    case emptyErr => exact absurd rfl h4
    all_goals rfl
  refine ⟨hfail.1, hfail.2, ?_, rfl⟩
  unfold runHandler
  rw [hcore]
  rfl

/-- C2 counterexample: a stage that throws an `EmptyError` instance.
The chain aborts, but the `firstValueFrom(...).catch` converts the error
into a `null` success, so the response is a 200 — not the status the
classifier would assign to the error (500, as no rule matches it). -/
theorem c2_emptyerror_bypasses_classifier :
    chainOutcome (JsVal.vObj []) [fun _ => StageOutcome.throwSync Err.emptyErr]
      = ChainOutcome.failure Err.emptyErr ∧
    (runHandler bcfgDefault
      (mkChainCfg [fun _ => StageOutcome.throwSync Err.emptyErr] []
        (some DEFAULT_TIMEOUT) [])
      jsonParseStub getEvent "req" "ts").statusCode = 200 ∧
    (runHandler bcfgDefault
      (mkChainCfg [fun _ => StageOutcome.throwSync Err.emptyErr] []
        (some DEFAULT_TIMEOUT) [])
      jsonParseStub getEvent "req" "ts").body = "null" ∧
    classifyError [] Err.emptyErr = 500 :=
  ⟨rfl, rfl, rfl, rfl⟩

/-- C2 witness: a single stage throwing a user error mapped to 404. -/
theorem c2_stage_failure_aborts_witness :
    (runHandler bcfgDefault
      (mkChainCfg [fun _ => StageOutcome.throwSync (Err.custom 7 "boom")]
        [(404, [ErrClass.customClass 7])] (some DEFAULT_TIMEOUT) [])
      jsonParseStub getEvent "req" "ts").statusCode = 404 := by
  have h := c2_stage_failure_aborts [(404, [ErrClass.customClass 7])]
    [fun _ => StageOutcome.throwSync (Err.custom 7 "boom")] [] 0
    (fun _ => StageOutcome.throwSync (Err.custom 7 "boom")) (JsVal.vObj [])
    (Err.custom 7 "boom") DEFAULT_TIMEOUT jsonParseStub "req" "ts"
    rfl rfl rfl (by decide) (by decide)
  rw [h.2.2.1]
  decide

/-- C3 (amended): the response status for a caught error is the first
status, in ascending numeric order of status codes (JavaScript
enumerates the integer-like keys of the `errorMapping` object literal in
ascending order, not user-rules-first), whose class set matches the
error; the mapping's 400 entry is the user's 400 classes merged with
`SchemaValidationError`, while its 408 and 413 entries are the built-ins
`[RequestTimeoutError]` and `[PayloadTooLargeError]`, replacing (not
merging with) any user rules under those keys; an error matching no
entry yields 500; and the handler's error response carries exactly this
status. -/
theorem c3_classifier_order (user : List (Nat × List ErrClass)) (e : Err) :
    ((400, (recordLookup user 400).getD [] ++ [ErrClass.schemaValidationError])
        ∈ errorMapping user) ∧
    ((408, [ErrClass.requestTimeoutError]) ∈ errorMapping user) ∧
    ((413, [ErrClass.payloadTooLargeError]) ∈ errorMapping user) ∧
    (∀ (k : Nat) (cs : List ErrClass), (k, cs) ∈ errorMapping user →
      errMatchesAny e cs = true →
      classifyError user e ≤ k ∧
        ∃ cs2, (classifyError user e, cs2) ∈ errorMapping user ∧
          errMatchesAny e cs2 = true) ∧
    ((∀ (k : Nat) (cs : List ErrClass), (k, cs) ∈ errorMapping user →
      errMatchesAny e cs = false) → classifyError user e = 500) ∧
    (e ≠ Err.emptyErr → ∀ (jp : String → Except String JsVal) (rid now : String),
      (runHandler bcfgDefault
        (mkChainCfg [fun _ => StageOutcome.throwSync e] user (some DEFAULT_TIMEOUT) [])
        jp getEvent rid now).statusCode = classifyError user e) := by
  refine ⟨?_, ?_, ?_, ?_, ?_, ?_⟩
  · exact mem_errorMapping_of_key user 400 (Or.inr (by decide))
  · exact mem_errorMapping_of_key user 408 (Or.inr (by decide))
  · exact mem_errorMapping_of_key user 413 (Or.inr (by decide))
  · intro k cs hm hmatch
    exact classifyError_le user e k cs hm hmatch
  · exact classifyError_default user e
  · intro h4 jp rid now
    have hcore : handlerCore
        (mkChainCfg [fun _ => StageOutcome.throwSync e] user (some DEFAULT_TIMEOUT) [])
        jp getEvent = Except.error e := by
      rw [handlerCore_chain]
      simp only [Option.getD_some]
      rw [if_neg (Nat.not_lt.mpr (show
        (runChainAux (JsVal.vObj []) [fun _ => StageOutcome.throwSync e]).2.1
          ≤ DEFAULT_TIMEOUT from Nat.zero_le _))]
      cases e
      case emptyErr => exact absurd rfl h4
      all_goals rfl
    unfold runHandler
    rw [hcore]
    rfl

/-- C3 counterexample: a user rule `404 ↦ [SchemaValidationError]`.  The
claim predicts the user rule wins (status 404); the code enumerates keys
in ascending numeric order, so the merged built-in 400 entry matches
first and the status is 400. -/
theorem c3_user_rule_not_prioritized :
    classifyError [(404, [ErrClass.schemaValidationError])]
      (Err.schemaValidation "Validation failed" []) = 400 ∧
    classifyErrorClaimed [(404, [ErrClass.schemaValidationError])]
      (Err.schemaValidation "Validation failed" []) = 404 ∧
    (400 : Nat) ≠ 404 :=
  ⟨rfl, rfl, by decide⟩

/-- C3 witness: a user error tagged 9 mapped to 404. -/
theorem c3_classifier_order_witness :
    (runHandler bcfgDefault
      (mkChainCfg [fun _ => StageOutcome.throwSync (Err.custom 9 "x")]
        [(404, [ErrClass.customClass 9])] (some DEFAULT_TIMEOUT) [])
      jsonParseStub getEvent "r" "t").statusCode
      = classifyError [(404, [ErrClass.customClass 9])] (Err.custom 9 "x") ∧
    classifyError [(404, [ErrClass.customClass 9])] (Err.custom 9 "x") = 404 := by
  have h := c3_classifier_order [(404, [ErrClass.customClass 9])] (Err.custom 9 "x")
  exact ⟨h.2.2.2.2.2 (by decide) jsonParseStub "r" "t", by decide⟩

/-- C4: for every chain that succeeds (within the deadline) with a
result whose JSON serialization exists, a serialized body strictly
larger than `maxResponseSize ?? DEFAULT_MAX_RESPONSE_SIZE` (the default
being 6 * 1024 * 1024 bytes) makes the handler discard the result and
answer with the `PayloadTooLargeError` envelope, status 413 — never a
truncated or streamed 200 — while a body at or under the cap is
returned verbatim with status 200. -/
theorem c4_response_size_cap (mrs : Option Nat) (stages : List Stage)
    (fl : List (String × JsVal)) (T : Nat) (jp : String → Except String JsVal)
    (rid now : String) (v : JsVal) (s : String)
    (h1 : chainOutcome (JsVal.vObj fl) stages = ChainOutcome.success v)
    (h2 : chainElapsed (JsVal.vObj fl) stages ≤ T)
    (h3 : stringify v = some s) :
    (s.utf8ByteSize > mrs.getD DEFAULT_MAX_RESPONSE_SIZE →
      runHandler ⟨mrs, none, none⟩ (mkChainCfg stages [] (some T) fl) jp
          getEvent rid now
        = mkErrorResponse ⟨mrs, none, none⟩ [] Err.payloadTooLarge getEvent rid now ∧
      (runHandler ⟨mrs, none, none⟩ (mkChainCfg stages [] (some T) fl) jp
          getEvent rid now).statusCode = 413) ∧
    (s.utf8ByteSize ≤ mrs.getD DEFAULT_MAX_RESPONSE_SIZE →
      (runHandler ⟨mrs, none, none⟩ (mkChainCfg stages [] (some T) fl) jp
          getEvent rid now).statusCode = 200 ∧
      (runHandler ⟨mrs, none, none⟩ (mkChainCfg stages [] (some T) fl) jp
          getEvent rid now).body = s) := by
  have hcore : handlerCore (mkChainCfg stages [] (some T) fl) jp getEvent
      = Except.ok v := by
    rw [handlerCore_chain]
    simp only [Option.getD_some]
    rw [if_neg (Nat.not_lt.mpr h2 :
      ¬ T < (runChainAux (JsVal.vObj fl) stages).2.1)]
    rw [show (runChainAux (JsVal.vObj fl) stages).2.2 = ChainOutcome.success v
      from h1]
  have hrun := runHandler_ok_some ⟨mrs, none, none⟩
    (mkChainCfg stages [] (some T) fl) jp getEvent rid now v s hcore h3
  constructor
  · intro hgt
    rw [hrun, if_pos hgt]
    exact ⟨rfl, rfl⟩
  · intro hle
    rw [hrun, if_neg (Nat.not_lt.mpr hle)]
    exact ⟨rfl, rfl⟩

/-- C4 witness: a 14-byte serialized body against a configured cap of
10 bytes (the spec's own scenario) yields status 413. -/
theorem c4_response_size_cap_witness :
    (runHandler ⟨some 10, none, none⟩
      (mkChainCfg [fun _ => StageOutcome.value (JsVal.vStr "0123456789ab")] []
        (some DEFAULT_TIMEOUT) [])
      jsonParseStub getEvent "r" "t").statusCode = 413 := by
  have h := c4_response_size_cap (some 10)
    [fun _ => StageOutcome.value (JsVal.vStr "0123456789ab")] [] DEFAULT_TIMEOUT
    jsonParseStub "r" "t" (JsVal.vStr "0123456789ab") "\"0123456789ab\""
    rfl (by decide) rfl
  exact (h.1 (by decide)).2

/-- C5: the deadline is a single timer of `timeoutMs ?? DEFAULT_TIMEOUT`
(default 29000 ms) wrapped once around the whole chain; if it elapses
before the chain's final notification — that is, if the chain's
accumulated asynchronous delay exceeds the budget, regardless of how the
delay distributes over stages and regardless of whether the chain was
still running, would have succeeded, or would have failed — the handler
answers 408 with an error body whose `code` field is 408.  The
cumulative comparison is exactly the never-reset-per-stage property:
stages individually under budget still time out when their sum exceeds
it (see the witness).  Synchronous validation and extraction consume no
event-loop time in this model, so only stage delays race the timer. -/
theorem c5_deadline_timeout (stages : List Stage) (fl : List (String × JsVal))
    (tmoOpt : Option Nat) (jp : String → Except String JsVal) (rid now : String)
    (h : tmoOpt.getD DEFAULT_TIMEOUT < chainElapsed (JsVal.vObj fl) stages) :
    (runHandler bcfgDefault (mkChainCfg stages [] tmoOpt fl) jp
        getEvent rid now).statusCode = 408 ∧
    (runHandler bcfgDefault (mkChainCfg stages [] tmoOpt fl) jp
        getEvent rid now).body
      = (stringify (errorBodyJson requestTimeoutMessage 408 rid now none)).getD "" := by
  have hcore : handlerCore (mkChainCfg stages [] tmoOpt fl) jp getEvent
      = Except.error Err.requestTimeout := by
    rw [handlerCore_chain]
    rw [if_pos (show tmoOpt.getD DEFAULT_TIMEOUT
      < (runChainAux (JsVal.vObj fl) stages).2.1 from h)]
  rw [runHandler_error bcfgDefault (mkChainCfg stages [] tmoOpt fl) jp getEvent
    rid now Err.requestTimeout hcore]
  exact ⟨rfl, rfl⟩

/-- C5 witness: two stages of 30 ms each against `timeoutMs = 50`: each
stage alone is under the budget, their sum is not, so the timer (never
reset between stages) fires and the response is 408 with `code` 408 in
the body. -/
theorem c5_deadline_timeout_witness :
    (runHandler bcfgDefault
      (mkChainCfg [fun _ => StageOutcome.promiseOk 30 JsVal.vNull,
        fun _ => StageOutcome.promiseOk 30 JsVal.vNull] [] (some 50) [])
      jsonParseStub getEvent "r" "t").statusCode = 408 ∧
    (runHandler bcfgDefault
      (mkChainCfg [fun _ => StageOutcome.promiseOk 30 JsVal.vNull,
        fun _ => StageOutcome.promiseOk 30 JsVal.vNull] [] (some 50) [])
      jsonParseStub getEvent "r" "t").body
      = "\x7b\"message\":\"Request Timeout\",\"code\":408,\"requestId\":\"r\",\"timestamp\":\"t\"\x7d" := by
  have h := c5_deadline_timeout
    [fun _ => StageOutcome.promiseOk 30 JsVal.vNull,
      fun _ => StageOutcome.promiseOk 30 JsVal.vNull] [] (some 50)
    jsonParseStub "r" "t" (by decide)
  exact ⟨h.1, by rw [h.2]; rfl⟩

/-- C6 (amended): on every response — success or error, under any
configuration — the Access-Control-Allow-Origin header equals
`validateOrigin(event.headers.origin, corsOriginWhitelist)`, where the
origin is read from the exact lower-case `origin` header key; and
`validateOrigin` satisfies: no whitelist ⇒ `*`; absent origin ⇒ `*`;
empty-string origin ⇒ `*` (JavaScript falsiness); whitelist and a
nonempty listed origin ⇒ the echoed origin; whitelist and a nonempty
unlisted origin ⇒ the literal string "null". -/
theorem c6_cors_origin_policy (bcfg : BuilderConfig) (cfg : RouteConfig)
    (jp : String → Except String JsVal) (event : Event) (rid now : String) :
    headerGet (runHandler bcfg cfg jp event rid now).headers
        "Access-Control-Allow-Origin"
      = some (validateOrigin (headerGet event.headers "origin")
          bcfg.corsOriginWhitelist) ∧
    (∀ o : Option String, validateOrigin o none = "*") ∧
    (∀ wl : List String, validateOrigin none (some wl) = "*") ∧
    (∀ wl : List String, validateOrigin (some "") (some wl) = "*") ∧
    (∀ (wl : List String) (o : String), o ≠ "" → wl.contains o = true →
      validateOrigin (some o) (some wl) = o) ∧
    (∀ (wl : List String) (o : String), o ≠ "" → wl.contains o = false →
      validateOrigin (some o) (some wl) = "null") := by
  refine ⟨?_, ?_, ?_, ?_, ?_, ?_⟩
  · rw [runHandler_headers]
    exact headerGet_buildHeaders _ _
  · intro o; cases o <;> rfl
  · intro wl; rfl
  · intro wl; rfl
  · intro wl o ho hc
    show (if o = "" then "*" else if wl.contains o then o else "null") = o
    rw [if_neg ho, if_pos hc]
  · intro wl o ho hc
    show (if o = "" then "*" else if wl.contains o then o else "null") = "null"
    rw [if_neg ho, if_neg (by rw [hc]; exact Bool.false_ne_true)]

/-- C6 counterexample: a request declaring its origin under the
capitalized `Origin` header key, with that origin whitelisted.  The
claim predicts the echoed origin; the code reads only
`event.headers.origin` and answers `*`.  Likewise an empty-string origin
against a whitelist yields `*` where the claim predicts "null". -/
theorem c6_origin_key_case_sensitive :
    headerGet (runHandler ⟨none, none, some ["https://ok.com"]⟩
      (mkChainCfg [] [] none []) jsonParseStub
      ⟨"GET", [("Origin", "https://ok.com")], none⟩ "r" "t").headers
      "Access-Control-Allow-Origin" = some "*" ∧
    ("*" : String) ≠ "https://ok.com" ∧
    validateOrigin (some "") (some ["https://ok.com"]) = "*" ∧
    ("*" : String) ≠ "null" :=
  ⟨rfl, by decide, rfl, by decide⟩

/-- C6 witness: the spec's own scenario — origin `https://evil.com`
against whitelist `["https://ok.com"]` gets the literal "null". -/
theorem c6_cors_origin_policy_witness :
    headerGet (runHandler ⟨none, none, some ["https://ok.com"]⟩
      (mkChainCfg [] [] none []) jsonParseStub
      ⟨"GET", [("origin", "https://evil.com")], none⟩ "r" "t").headers
      "Access-Control-Allow-Origin" = some "null" ∧
    validateOrigin (some "https://ok.com") (some ["https://ok.com"])
      = "https://ok.com" := by
  have h := c6_cors_origin_policy ⟨none, none, some ["https://ok.com"]⟩
    (mkChainCfg [] [] none []) jsonParseStub
    ⟨"GET", [("origin", "https://evil.com")], none⟩ "r" "t"
  constructor
  · rw [h.1]
    rfl
  · exact h.2.2.2.2.1 ["https://ok.com"] "https://ok.com" (by decide) (by decide)

/-- C7 (amended): a stage whose Observable completes with zero values
makes `firstValueFrom` reject with `EmptyError`; the chain aborts there
— the remaining stages are NOT invoked — and the top-level
`.catch` converts the `EmptyError` into a `null` overall result, so the
invocation does not fail: the response is a 200 whose body is `null`.
(At most one produced value is ever taken, since `firstValueFrom`
resolves with the first emission.) -/
theorem c7_empty_observable (stages : List Stage) (fl : List (String × JsVal))
    (i : Nat) (s : Stage) (qi : JsVal) (d : Nat) (T : Nat)
    (jp : String → Except String JsVal) (rid now : String)
    (h1 : stages.get? i = some s)
    (h2 : (chainTrace (JsVal.vObj fl) stages).get? i = some qi)
    (h3 : s qi = StageOutcome.observableEmpty d)
    (h5 : chainElapsed (JsVal.vObj fl) stages ≤ T) :
    (chainTrace (JsVal.vObj fl) stages).length = i + 1 ∧
    chainOutcome (JsVal.vObj fl) stages = ChainOutcome.failure Err.emptyErr ∧
    (runHandler bcfgDefault (mkChainCfg stages [] (some T) fl) jp
        getEvent rid now).statusCode = 200 ∧
    (runHandler bcfgDefault (mkChainCfg stages [] (some T) fl) jp
        getEvent rid now).body = "null" := by
  have h3f : stageFailure s qi = some Err.emptyErr := by
    simp [stageFailure, stageStep, h3]
  have hfail := runChainAux_fail stages (JsVal.vObj fl) i s qi Err.emptyErr h1 h2 h3f
  have hcore : handlerCore (mkChainCfg stages [] (some T) fl) jp getEvent
      = Except.ok JsVal.vNull := by
    rw [handlerCore_chain]
    simp only [Option.getD_some]
    rw [if_neg (Nat.not_lt.mpr h5 :
      ¬ T < (runChainAux (JsVal.vObj fl) stages).2.1)]
    rw [show (runChainAux (JsVal.vObj fl) stages).2.2
      = ChainOutcome.failure Err.emptyErr from hfail.2]
  have hrun := runHandler_ok_some bcfgDefault (mkChainCfg stages [] (some T) fl)
    jp getEvent rid now JsVal.vNull "null" hcore rfl
  refine ⟨hfail.1, hfail.2, ?_, ?_⟩
  · rw [hrun, if_neg (by decide)]
    rfl
  · rw [hrun, if_neg (by decide)]
    rfl

/-- C7 counterexample: a two-stage chain whose first stage's observable
completes empty.  The claim predicts the second stage still executes
with `null`; in fact only one factory is ever invoked (the trace has
length 1), and the invocation ends as a 200 with body `null`. -/
theorem c7_empty_observable_skips_rest :
    chainTrace (JsVal.vObj [])
      [fun _ => StageOutcome.observableEmpty 0, fun q => StageOutcome.value q]
      = [JsVal.vObj []] ∧
    (runHandler bcfgDefault
      (mkChainCfg [fun _ => StageOutcome.observableEmpty 0,
        fun q => StageOutcome.value q] [] none [])
      jsonParseStub getEvent "r" "t").statusCode = 200 ∧
    (runHandler bcfgDefault
      (mkChainCfg [fun _ => StageOutcome.observableEmpty 0,
        fun q => StageOutcome.value q] [] none [])
      jsonParseStub getEvent "r" "t").body = "null" :=
  ⟨rfl, rfl, rfl⟩

/-- C7 witness: a single empty-completing observable stage. -/
theorem c7_empty_observable_witness :
    (runHandler bcfgDefault
      (mkChainCfg [fun _ => StageOutcome.observableEmpty 5] []
        (some DEFAULT_TIMEOUT) [])
      jsonParseStub getEvent "r" "t").body = "null" := by
  have h := c7_empty_observable [fun _ => StageOutcome.observableEmpty 5] [] 0
    (fun _ => StageOutcome.observableEmpty 5) (JsVal.vObj []) 5 DEFAULT_TIMEOUT
    jsonParseStub "r" "t" rfl rfl rfl (by decide)
  exact h.2.2.2

/-- C8 (code bug, evaluated): a request failing schema validation (the
schema reports a missing required `password`) yields status 400, but
each entry of the `validationErrors` array in the body carries ONLY a
`message` field: the catch block maps `err.schemaPath`, `err.keyword`
and `err.params` over the findings stored by `validate`, which are
`(key, message)` pairs, so those three properties are `undefined` and
JSON.stringify drops them.  The claim (and the catch block's own intent)
is that each entry carries path, message, keyword and params. -/
theorem c8_validation_errors_only_message :
    (runHandler bcfgDefault
      ⟨[], none, none, none,
        some (fun _ => some [⟨"", "required", some "password", none, none, none,
          some "must have required property \x27password\x27", none⟩]), none⟩
      jsonParseStub ⟨"POST", [("content-type", "application/json")], some "\x7b\x7d"⟩
      "req-1" "2026-01-01T00:00:00.000Z").statusCode = 400 ∧
    (runHandler bcfgDefault
      ⟨[], none, none, none,
        some (fun _ => some [⟨"", "required", some "password", none, none, none,
          some "must have required property \x27password\x27", none⟩]), none⟩
      jsonParseStub ⟨"POST", [("content-type", "application/json")], some "\x7b\x7d"⟩
      "req-1" "2026-01-01T00:00:00.000Z").body
      = "\x7b\"message\":\"Validation failed\",\"code\":400,\"requestId\":\"req-1\",\"timestamp\":\"2026-01-01T00:00:00.000Z\",\"validationErrors\":[\x7b\"message\":\"must have required property \x27password\x27\"\x7d]\x7d" ∧
    stringify (validationErrorEntry ⟨"password",
      "must have required property \x27password\x27"⟩)
      = some "\x7b\"message\":\"must have required property \x27password\x27\"\x7d" :=
  ⟨rfl, rfl, rfl⟩

/-- C9 (code bug, evaluated): for a missing required field at a nested
instance path (`/address` missing `city`), `formatErrors` returns the
parent path `"address"` as the key — the `missingProperty` branch is
only reachable when the path is empty, so the field name is never
appended to a non-empty parent path (the `parentPath ? ... : ...`
ternary in that branch is dead code betraying the intended
`"address.city"`).  At the root the field name alone is used, as the
claim says. -/
theorem c9_missing_property_key_drops_field :
    formatErrors [⟨"/address", "required", some "city", none, none, none,
      some "must have required property \x27city\x27", none⟩]
      = [⟨"address", "must have required property \x27city\x27"⟩] ∧
    ("address" : String) ≠ "address.city" ∧
    formatErrors [⟨"", "required", some "city", none, none, none,
      some "msg", none⟩] = [⟨"city", "msg"⟩] :=
  ⟨by decide, by decide, by decide⟩

/-- C10 (amended): a POST or PUT request whose `content-type` header
(exact lower-case key) does not contain `application/json` fails
immediately — before validation, extraction or any stage, as the error
response is independent of handlers, schema and reflectors — with a
plain Error that no default rule matches, hence status 500; a request
with another method, or one declaring a JSON content type under the
exact lower-case key, passes the gate (a benign configuration then
answers 200).  Differently-cased header keys such as `Content-Type` are
NOT recognized — see the counterexample. -/
theorem c10_content_type_gate (bcfg : BuilderConfig) (cfg : RouteConfig)
    (jp : String → Except String JsVal) (event : Event) (rid now : String) :
    (contentTypeGateFails event = true →
      runHandler bcfg cfg jp event rid now
        = mkErrorResponse bcfg (userMappingOf cfg)
            (Err.generic "Content-Type must be application/json") event rid now) ∧
    classifyError [] (Err.generic "Content-Type must be application/json") = 500 ∧
    (contentTypeGateFails event = false →
      (runHandler bcfgDefault (mkChainCfg [] [] none []) jp event rid now).statusCode
        = 200) := by
  refine ⟨?_, rfl, ?_⟩
  · intro hg
    apply runHandler_error
    unfold handlerCore
    rw [if_pos hg]
  · intro hg
    have hcore : handlerCore (mkChainCfg [] [] none []) jp event
        = Except.ok (JsVal.vObj []) := by
      unfold handlerCore
      rw [if_neg (by rw [hg]; exact Bool.false_ne_true)]
      rfl
    have hrun := runHandler_ok_some bcfgDefault (mkChainCfg [] [] none []) jp event
      rid now (JsVal.vObj []) "\x7b\x7d" hcore rfl
    rw [hrun, if_neg (by decide)]
    rfl

/-- C10 counterexample: a POST declaring `application/json` under the
capitalized `Content-Type` key.  The claim says header keys are
case-insensitive and the request proceeds; the code looks up only the
exact lower-case `content-type` key, finds nothing, and rejects the
request with status 500. -/
theorem c10_content_type_key_case_sensitive :
    (runHandler bcfgDefault (mkChainCfg [] [] none []) jsonParseStub
      ⟨"POST", [("Content-Type", "application/json")], some "\x7b\x7d"⟩
      "r" "t").statusCode = 500 ∧
    headerGet [("Content-Type", "application/json")] "Content-Type"
      = some "application/json" ∧
    declaresJsonContentType
      ⟨"POST", [("Content-Type", "application/json")], some "\x7b\x7d"⟩ = false :=
  ⟨rfl, rfl, rfl⟩

/-- C10 witness: a POST with `content-type: text/plain` is rejected with
the content-type error envelope; a GET passes the gate and answers 200. -/
theorem c10_content_type_gate_witness :
    runHandler bcfgDefault (mkChainCfg [] [] none []) jsonParseStub
      ⟨"POST", [("content-type", "text/plain")], some "x"⟩ "r" "t"
      = mkErrorResponse bcfgDefault []
          (Err.generic "Content-Type must be application/json")
          ⟨"POST", [("content-type", "text/plain")], some "x"⟩ "r" "t" ∧
    (runHandler bcfgDefault (mkChainCfg [] [] none []) jsonParseStub
      getEvent "r" "t").statusCode = 200 := by
  have h1 := c10_content_type_gate bcfgDefault (mkChainCfg [] [] none [])
    jsonParseStub ⟨"POST", [("content-type", "text/plain")], some "x"⟩ "r" "t"
  have h2 := c10_content_type_gate bcfgDefault (mkChainCfg [] [] none [])
    jsonParseStub getEvent "r" "t"
  exact ⟨h1.1 rfl, h2.2.2 rfl⟩
